import Mathlib

/-!
Verification of the `bean` framework's panic-safe async executor
(`async/async.go`) and JWT helpers (`framework/internals/helpers/jwt.go`),
via a shallow embedding in Lean.

The async executor is embedded as trace-producing functions: each Go
function is translated into a Lean function returning the sequence of its
observable side effects (`Ev`) together with any panic that escapes it.
Go's `defer` statements are compiled away by hand, preserving their LIFO
execution order, which is exactly what the temporal claims are about.
External collaborators (the worker-pool registry, the regex engine, the
JWT parser) are abstracted as parameters recording only the behaviour the
embedded code observes of them.
-/

namespace Bean

/-- Panic values (Go `interface{}` / `error` values) are identified by a
string tag; the executor never inspects them, it only carries them. -/
abbrev PanicVal := String

/-- Observable side effects of one executor invocation, in order of
occurrence.  `sinkCapture v tag req` is `localHub.Recover(err)` on a hub
cloned from the current hub, with the `goroutine` tag set to `tag` and the
request attached iff `req`; `logError v` is `bean.Logger().Error(err)`. -/
inductive Ev where
  | warnNoPool (name : String)
  | submitTask (name : String)
  | workRun
  | spanStart
  | spanMarkNotSampled
  | spanFinish
  | ctxAcquire
  | ctxRelease
  | sinkCapture (v : PanicVal) (goroutineTag : Bool) (withRequest : Bool)
  | logError (v : PanicVal)
  deriving DecidableEq

/-- The result of running a piece of code: its trace of observable events,
and the panic escaping it (`none` when it returns normally). -/
abbrev Run := List Ev × Option PanicVal

/-- Embeds `recoverPanic(c echo.Context)` from `async/async.go`:
`recover()` the pending panic `p`; if a panic was pending and sentry is on,
clone the current hub, attach the request when `c != nil` (`hasCtx`), tag
`goroutine=true`, and `Recover` the value on the clone; in every panic case
log the value.  The deferred function itself always returns normally. -/
def recoverPanic (sentryOn : Bool) (hasCtx : Bool) (p : Option PanicVal) : Run :=
  match p with
  | none => ([], none)
  | some v =>
      ((if sentryOn then [Ev.sinkCapture v true hasCtx] else []) ++ [Ev.logError v], none)

/-- A registered worker pool, abstracted to the one behaviour `Execute`
depends on: whether `pool.Submit(task)` returns an error (`some e`) or
accepts the task (`none`).  When it accepts, the task runs on a pool
worker. -/
structure Pool where
  submitErr : Option PanicVal

/-- Embeds `Execute(fn func(), poolName ...string)` from `async/async.go`.
`lk name` models `gopool.GetPool(name)`: `none` when the lookup errs or
returns a nil pool.  The variadic pool name is an `Option` (absent when no
name is passed).  `fn` is the unit of work's run.  The result merges the
caller-side and goroutine-side traces in program order; its second
component is a panic not recovered by this package's code. -/
def execute (sentryOn : Bool) (lk : String → Option Pool) (fn : Run)
    (poolName : Option String) : Run :=
  match poolName with
  | none =>
      -- go func() { defer recoverPanic(nil); task() }()
      let r := recoverPanic sentryOn false fn.2
      (fn.1 ++ r.1, r.2)
  | some name =>
      match lk name with
      | some pool =>
          -- asyncFunc = { defer recoverPanic(nil); err = pool.Submit(task);
          --               if err != nil { panic(err) } }
          match pool.submitErr with
          | some e =>
              -- Submit rejected the task: the task does not run; panic(err)
              -- is caught by the deferred recoverPanic(nil).
              let r := recoverPanic sentryOn false (some e)
              (Ev.submitTask name :: r.1, r.2)
          | none =>
              -- Submit accepted: asyncFunc returns normally (its deferred
              -- recoverPanic sees no panic); the raw task runs on a pool
              -- worker, outside any recoverPanic of this package.
              (Ev.submitTask name :: fn.1, fn.2)
      | none =>
          -- lookup failed: warn, keep the default unpooled asyncFunc
          let r := recoverPanic sentryOn false fn.2
          (Ev.warnNoPool name :: (fn.1 ++ r.1), r.2)

/-- Relevant sentry configuration read by `ExecuteWithContext` at execution
time: `bean.BeanConfig.Sentry.On`, `viper sentry.tracesSampleRate`, and
`viper sentry.skipTracesEndpoints`. -/
structure Cfg where
  sentryOn : Bool
  tracesSampleRate : ℚ
  skipTracesEndpoints : List String

/-- Modelled from the spec: `helpers.FloatInRange` is not under `src/`
(only its call sites are).  Per the spec's configuration contract —
"sampling rate in [0,1]", read through a range clamp — it clamps `v` into
the closed interval `[lo, hi]`. -/
def FloatInRange (v lo hi : ℚ) : ℚ :=
  if v < lo then lo else if hi < v then hi else v

/-- Embeds the `for _, endpoint := range skipTracesEndpoints` loop of
`ExecuteWithContext`: on the first pattern whose regex matches the path,
set `span.Sampled = sentry.SampledFalse` and `break`.  `rmatch pat s`
models `regexp.MustCompile(pat).MatchString(s)`. -/
def markSkipLoop (rmatch : String → String → Bool) :
    List String → String → List Ev
  | [], _ => []
  | e :: rest, path =>
      if rmatch e path then [Ev.spanMarkNotSampled] else markSkipLoop rmatch rest path

/-- The span-setup block of `ExecuteWithContext`: when sentry is on and the
clamped sample rate is positive, start a span (then mark it not-sampled if
the path matches a skip pattern). -/
def spanOpen (cfg : Cfg) (rmatch : String → String → Bool) (path : String) : List Ev :=
  if cfg.sentryOn then
    if 0 < FloatInRange cfg.tracesSampleRate 0 1 then
      Ev.spanStart :: markSkipLoop rmatch cfg.skipTracesEndpoints path
    else []
  else []

/-- The deferred `span.Finish()` of `ExecuteWithContext`: registered first
(inside the span block), hence executed last of the three defers. -/
def spanClose (cfg : Cfg) : List Ev :=
  if cfg.sentryOn then
    if 0 < FloatInRange cfg.tracesSampleRate 0 1 then [Ev.spanFinish]
    else []
  else []

/-- Embeds the closure `ExecuteWithContext` passes to `Execute`: span setup
(when configured), then `fn(ec)`, then the three deferred actions in LIFO
order — `recoverPanic(ec)` (registered last, runs first), then
`ec.Echo().ReleaseContext(ec)`, then `span.Finish()` (registered first,
runs last).  The closure never lets a panic escape. -/
def withCtxClosure (cfg : Cfg) (rmatch : String → String → Bool)
    (path : String) (fn : Run) : Run :=
  let r := recoverPanic cfg.sentryOn true fn.2
  (spanOpen cfg rmatch path ++ fn.1 ++ r.1 ++ [Ev.ctxRelease] ++ spanClose cfg, none)

/-- Embeds `ExecuteWithContext(fn Task, c echo.Context, poolName ...string)`:
acquire a context from the echo pool, reset it, and hand the wrapped
closure to `Execute` with the same pool name. -/
def executeWithContext (cfg : Cfg) (rmatch : String → String → Bool)
    (lk : String → Option Pool) (path : String) (fn : Run)
    (poolName : Option String) : Run :=
  let r := execute cfg.sentryOn lk (withCtxClosure cfg rmatch path fn) poolName
  (Ev.ctxAcquire :: r.1, r.2)

/-- A canonical unit of work: one observable `workRun` step, panicking with
`p` when `p = some v`. -/
def mkWork (p : Option PanicVal) : Run := ([Ev.workRun], p)

/-- Event `a` occurs strictly before event `b` in trace `t`. -/
def before (a b : Ev) (t : List Ev) : Prop :=
  ∃ l₁ l₂ l₃, t = l₁ ++ a :: (l₂ ++ b :: l₃)

/-- The trace of one unpooled `ExecuteWithContext` invocation on the
canonical unit of work. -/
def ctxTrace (cfg : Cfg) (rm : String → String → Bool) (lk : String → Option Pool)
    (path : String) (p : Option PanicVal) : List Ev :=
  (executeWithContext cfg rm lk path (mkWork p) none).1

namespace helpers

/-- Bitmask constant of the external `golang-jwt/jwt` library's
`ValidationError.Errors` field: token is malformed. -/
def ValidationErrorMalformed : Nat := 1

/-- EXP validation failed. -/
def ValidationErrorExpired : Nat := 16

/-- NBF validation failed. -/
def ValidationErrorNotValidYet : Nat := 128

/-- The error returned by `jwt.ParseWithClaims` (external library code):
either a `*jwt.ValidationError` carrying a bitmask of validation failures,
or some other error value. -/
inductive JwtErr where
  | validation (flags : Nat)
  | other
  deriving DecidableEq

/-- The pair `(token, err)` returned by `jwt.ParseWithClaims`, abstracted
to the two observations `ExtractUserInfoFromJWT` makes of it:
`token.Valid` and the error value. -/
structure ParseResult where
  valid : Bool
  err : Option JwtErr

/-- Embeds `ExtractUserInfoFromJWT` from
`framework/internals/helpers/jwt.go`, parameterized by the outcome of the
external parse call.  Mirrors the Go control flow: early return on a
non-nil parse error; then the `token.Valid` check; then the
`err.(*jwt.ValidationError)` type assertion on the same `err` variable —
which in that branch is necessarily nil, so the assertion takes its
failure arm.  Returns `none` for success, `some msg` for an error. -/
def ExtractUserInfoFromJWT (r : ParseResult) : Option String :=
  if r.err ≠ none then some "invalid user token"
  else if r.valid then none
  else
    match r.err with
    | some (JwtErr.validation ve) =>
        if ve &&& ValidationErrorMalformed ≠ 0 then some "invalid user token"
        else if ve &&& (ValidationErrorExpired ||| ValidationErrorNotValidYet) ≠ 0 then
          some "token is expired"
        else some "invalid user token"
    | some JwtErr.other => some "invalid user token"
    | none => some "invalid user token"

/-- Embeds `ExtractJWTFromHeader` from
`framework/internals/helpers/jwt.go`; `authHeader` is the value of the
`Authorization` request header, `[]` when the header is absent. -/
def ExtractJWTFromHeader (authHeader : List Char) : List Char :=
  let l := "Bearer".length
  if authHeader.length > l + 1 ∧ authHeader.take l = "Bearer".toList then
    authHeader.drop (l + 1)
  else []

end helpers

/-! Helper lemmas about the shapes of the traces. -/

/-- The skip loop observably marks the span not-sampled exactly when some
pattern matches the path. -/
lemma markSkipLoop_eq (rm : String → String → Bool) (skips : List String) (path : String) :
    markSkipLoop rm skips path =
      if skips.any (fun e => rm e path) then [Ev.spanMarkNotSampled] else [] := by
  induction skips with
  | nil => simp [markSkipLoop]
  | cons e rest ih =>
      by_cases h : rm e path = true
      · simp [markSkipLoop, h]
      · simp only [markSkipLoop, h, if_neg, List.any_cons]
        simp [h, ih]

lemma mem_spanOpen {cfg : Cfg} {rm : String → String → Bool} {path : String} {e : Ev}
    (h : e ∈ spanOpen cfg rm path) :
    e = Ev.spanStart ∨ e = Ev.spanMarkNotSampled := by
  unfold spanOpen at h
  split at h
  · split at h
    · rw [markSkipLoop_eq] at h
      rcases List.mem_cons.mp h with h1 | h2
      · exact Or.inl h1
      · split at h2 <;> simp_all
    · simp at h
  · simp at h

lemma mem_spanClose {cfg : Cfg} {e : Ev} (h : e ∈ spanClose cfg) : e = Ev.spanFinish := by
  unfold spanClose at h
  split at h
  · split at h <;> simp_all
  · simp at h

lemma spanStart_mem_spanOpen_iff (cfg : Cfg) (rm : String → String → Bool) (path : String) :
    Ev.spanStart ∈ spanOpen cfg rm path ↔
      (cfg.sentryOn = true ∧ 0 < FloatInRange cfg.tracesSampleRate 0 1) := by
  unfold spanOpen
  split
  · split
    · simp_all
    · simp_all
  · simp_all

lemma spanClose_eq_iff (cfg : Cfg) :
    spanClose cfg = (if cfg.sentryOn ∧ 0 < FloatInRange cfg.tracesSampleRate 0 1
      then [Ev.spanFinish] else []) := by
  unfold spanClose
  split <;> split <;> simp_all

lemma mem_recoverPanic {sOn hasCtx : Bool} {p : Option PanicVal} {e : Ev}
    (h : e ∈ (recoverPanic sOn hasCtx p).1) :
    (∃ v, e = Ev.sinkCapture v true hasCtx) ∨ ∃ v, e = Ev.logError v := by
  cases p with
  | none => simp [recoverPanic] at h
  | some v =>
      cases sOn <;> simp [recoverPanic] at h
      · exact Or.inr ⟨v, h⟩
      · rcases h with h | h
        · exact Or.inl ⟨v, h⟩
        · exact Or.inr ⟨v, h⟩

lemma not_mem_spanOpen {cfg : Cfg} {rm : String → String → Bool} {path : String} {e : Ev}
    (h1 : e ≠ Ev.spanStart) (h2 : e ≠ Ev.spanMarkNotSampled) :
    e ∉ spanOpen cfg rm path :=
  fun h => (mem_spanOpen h).elim h1 h2

lemma not_mem_spanClose {cfg : Cfg} {e : Ev} (h1 : e ≠ Ev.spanFinish) :
    e ∉ spanClose cfg :=
  fun h => h1 (mem_spanClose h)

/-- Shape of one unpooled context-carrying invocation: acquire, span setup,
the work itself, recovery, release, span close — in that order. -/
lemma ctxTrace_eq (cfg : Cfg) (rm : String → String → Bool) (lk : String → Option Pool)
    (path : String) (p : Option PanicVal) :
    ctxTrace cfg rm lk path p =
      Ev.ctxAcquire :: (spanOpen cfg rm path ++ [Ev.workRun] ++
        (recoverPanic cfg.sentryOn true p).1 ++ [Ev.ctxRelease] ++ spanClose cfg) := by
  simp [ctxTrace, executeWithContext, execute, withCtxClosure, mkWork, recoverPanic]

lemma spanStart_mem_ctxTrace_iff (cfg : Cfg) (rm : String → String → Bool)
    (lk : String → Option Pool) (path : String) (p : Option PanicVal) :
    Ev.spanStart ∈ ctxTrace cfg rm lk path p ↔
      (cfg.sentryOn = true ∧ 0 < FloatInRange cfg.tracesSampleRate 0 1) := by
  rw [ctxTrace_eq]
  constructor
  · intro h
    simp only [List.mem_cons, List.mem_append] at h
    rcases h with h | ((((h | h) | h) | h) | h)
    · simp at h
    · exact (spanStart_mem_spanOpen_iff cfg rm path).mp h
    · simp at h
    · rcases mem_recoverPanic h with ⟨v, hv⟩ | ⟨v, hv⟩ <;> simp at hv
    · simp at h
    · exact absurd (mem_spanClose h) (by simp)
  · intro h
    have := (spanStart_mem_spanOpen_iff cfg rm path).mpr h
    simp only [List.mem_cons, List.mem_append]
    tauto

lemma spanFinish_mem_ctxTrace_iff (cfg : Cfg) (rm : String → String → Bool)
    (lk : String → Option Pool) (path : String) (p : Option PanicVal) :
    Ev.spanFinish ∈ ctxTrace cfg rm lk path p ↔
      (cfg.sentryOn = true ∧ 0 < FloatInRange cfg.tracesSampleRate 0 1) := by
  rw [ctxTrace_eq, spanClose_eq_iff]
  constructor
  · intro h
    simp only [List.mem_cons, List.mem_append] at h
    rcases h with h | ((((h | h) | h) | h) | h)
    · simp at h
    · exact absurd (mem_spanOpen h) (by simp)
    · simp at h
    · rcases mem_recoverPanic h with ⟨v, hv⟩ | ⟨v, hv⟩ <;> simp at hv
    · simp at h
    · by_cases hc : cfg.sentryOn = true ∧ 0 < FloatInRange cfg.tracesSampleRate 0 1
      · exact hc
      · simp [hc] at h
  · intro h
    simp only [List.mem_cons, List.mem_append]
    simp [h]

lemma mark_mem_ctxTrace_iff (cfg : Cfg) (rm : String → String → Bool)
    (lk : String → Option Pool) (path : String) (p : Option PanicVal) :
    Ev.spanMarkNotSampled ∈ ctxTrace cfg rm lk path p ↔
      Ev.spanMarkNotSampled ∈ spanOpen cfg rm path := by
  rw [ctxTrace_eq, spanClose_eq_iff]
  constructor
  · intro h
    simp only [List.mem_cons, List.mem_append] at h
    rcases h with h | ((((h | h) | h) | h) | h)
    · simp at h
    · exact h
    · simp at h
    · rcases mem_recoverPanic h with ⟨v, hv⟩ | ⟨v, hv⟩ <;> simp at hv
    · simp at h
    · split at h <;> simp at h
  · intro h
    simp only [List.mem_cons, List.mem_append]
    tauto

/-! The claims. -/

/-- C1: when the pool lookup succeeds but `pool.Submit` returns an error,
`Execute` converts the submission failure into a panic that is recovered by
the very same `recoverPanic` path used for execution-time faults, and
nothing (no error, no panic) propagates to the caller of `Execute`. -/
theorem execute_submit_failure_recovered (sOn : Bool) (lk : String → Option Pool)
    (fn : Run) (name : String) (pool : Pool) (e : PanicVal)
    (hlk : lk name = some pool) (he : pool.submitErr = some e) :
    execute sOn lk fn (some name) =
      (Ev.submitTask name :: (recoverPanic sOn false (some e)).1, none) := by
  simp [execute, hlk, he, recoverPanic]

/-- C1 witness: concrete saturated pool, submission error `boom`. -/
theorem execute_submit_failure_recovered_witness :
    execute true (fun _ => some ⟨some "boom"⟩) (mkWork none) (some "p") =
      (Ev.submitTask "p" :: (recoverPanic true false (some "boom")).1, none) :=
  execute_submit_failure_recovered true (fun _ => some ⟨some "boom"⟩) (mkWork none) "p"
    ⟨some "boom"⟩ "boom" rfl rfl

/-- C2: at the concrete input where the pool accepts the name but `Submit`
fails, `ExecuteWithContext` acquires the echo context once and never
releases it (the wrapped closure holding the deferred release never runs),
and the unit of work never runs either — the exactly-one-release invariant
is violated by the code on the submission-failure path. -/
theorem executeWithContext_submit_failure_leaks_context :
    (executeWithContext ⟨false, 0, []⟩ (fun _ _ => false)
        (fun _ => some ⟨some "submit failed"⟩) "/x" (mkWork none) (some "p")).1.count
        Ev.ctxAcquire = 1 ∧
    (executeWithContext ⟨false, 0, []⟩ (fun _ _ => false)
        (fun _ => some ⟨some "submit failed"⟩) "/x" (mkWork none) (some "p")).1.count
        Ev.ctxRelease = 0 ∧
    Ev.workRun ∉ (executeWithContext ⟨false, 0, []⟩ (fun _ _ => false)
        (fun _ => some ⟨some "submit failed"⟩) "/x" (mkWork none) (some "p")).1 := by
  decide

/-- C3 counterexample: under `Execute` with a registered pool that accepts
the submission, the raw task is handed to the pool unwrapped
(`pool.Submit(task)` with no `recoverPanic` around the task itself), so at
this concrete input — a panicking unit of work, reporting enabled — the
panic is never captured by `recoverPanic`: nothing is logged, nothing
reaches the sink, and the panic leaves this package unrecovered. -/
theorem execute_pooled_panic_unrecovered_counterexample :
    (execute true (fun _ => some ⟨none⟩) (mkWork (some "boom")) (some "p")).2 =
      some "boom" ∧
    Ev.logError "boom" ∉
      (execute true (fun _ => some ⟨none⟩) (mkWork (some "boom")) (some "p")).1 ∧
    (∀ tg rq, Ev.sinkCapture "boom" tg rq ∉
      (execute true (fun _ => some ⟨none⟩) (mkWork (some "boom")) (some "p")).1) := by
  decide

/-- C3 amended: on every path where the panic is delivered to
`recoverPanic` — work dispatched unpooled by `Execute`, and all work run
under `ExecuteWithContext` on both its unpooled and its accepted-pooled
route (its wrapped closure carries its own `recoverPanic`) — the panic is
captured and swallowed (the run returns normally, nothing escapes), the
value is always logged, and it is forwarded to the sink on a cloned hub
tagged `goroutine=true` (request attached iff a context is present) iff
reporting is enabled, with no capture reaching the sink when reporting is
disabled; work submitted raw by `Execute` to an accepting pool is not
guarded by `recoverPanic`. -/
theorem recoverPanic_captures_on_guarded_paths (sOn hasCtx : Bool) (v : PanicVal)
    (cfg : Cfg) (rm : String → String → Bool) (lk : String → Option Pool)
    (path name : String) (pool : Pool)
    (hlk : lk name = some pool) (hacc : pool.submitErr = none) :
    ((recoverPanic sOn hasCtx (some v)).2 = none ∧
      Ev.logError v ∈ (recoverPanic sOn hasCtx (some v)).1 ∧
      (Ev.sinkCapture v true hasCtx ∈ (recoverPanic sOn hasCtx (some v)).1 ↔ sOn = true) ∧
      (sOn = false → ∀ w tg rq, Ev.sinkCapture w tg rq ∉ (recoverPanic sOn hasCtx (some v)).1)) ∧
    execute sOn lk (mkWork (some v)) none =
      (Ev.workRun :: (recoverPanic sOn false (some v)).1, none) ∧
    executeWithContext cfg rm lk path (mkWork (some v)) none =
      (Ev.ctxAcquire :: (spanOpen cfg rm path ++ [Ev.workRun] ++
        (recoverPanic cfg.sentryOn true (some v)).1 ++ [Ev.ctxRelease] ++ spanClose cfg),
       none) ∧
    executeWithContext cfg rm lk path (mkWork (some v)) (some name) =
      (Ev.ctxAcquire :: Ev.submitTask name :: (spanOpen cfg rm path ++ [Ev.workRun] ++
        (recoverPanic cfg.sentryOn true (some v)).1 ++ [Ev.ctxRelease] ++ spanClose cfg),
       none) := by
  refine ⟨?_, ?_, ?_, ?_⟩
  · cases sOn <;> simp [recoverPanic]
  · simp [execute, mkWork, recoverPanic]
  · simp [executeWithContext, execute, withCtxClosure, mkWork, recoverPanic]
  · simp [executeWithContext, execute, withCtxClosure, mkWork, recoverPanic, hlk, hacc]

/-- C3 amended witness: a concrete accepting pool; the unpooled `Execute`
run of panicking work `boom` is exactly one `workRun` followed by the
`recoverPanic` trace, with nothing escaping. -/
theorem recoverPanic_captures_on_guarded_paths_witness :
    execute true (fun _ => some ⟨none⟩) (mkWork (some "boom")) none =
      (Ev.workRun :: (recoverPanic true false (some "boom")).1, none) :=
  (recoverPanic_captures_on_guarded_paths true false "boom" ⟨true, 0, []⟩
    (fun _ _ => false) (fun _ => some ⟨none⟩) "/x" "p" ⟨none⟩ rfl rfl).2.1

/-- C4: when the pool lookup fails (error or nil pool), `Execute` logs a
warning naming the missing pool, runs the work exactly once on an unpooled
goroutine wrapped in panic recovery, and nothing propagates to the
caller. -/
theorem execute_missing_pool_warns_and_runs (sOn : Bool) (lk : String → Option Pool)
    (p : Option PanicVal) (name : String) (hlk : lk name = none) :
    (execute sOn lk (mkWork p) (some name)).2 = none ∧
    Ev.warnNoPool name ∈ (execute sOn lk (mkWork p) (some name)).1 ∧
    (execute sOn lk (mkWork p) (some name)).1.count Ev.workRun = 1 := by
  cases p <;> cases sOn <;>
    simp [execute, hlk, mkWork, recoverPanic, List.count_cons, List.count_append]

/-- C4 witness: the never-registered pool `ghost_pool`. -/
theorem execute_missing_pool_warns_and_runs_witness :
    (execute false (fun _ => none) (mkWork none) (some "ghost_pool")).2 = none ∧
    Ev.warnNoPool "ghost_pool" ∈
      (execute false (fun _ => none) (mkWork none) (some "ghost_pool")).1 ∧
    (execute false (fun _ => none) (mkWork none) (some "ghost_pool")).1.count Ev.workRun = 1 :=
  execute_missing_pool_warns_and_runs false (fun _ => none) none "ghost_pool" rfl

/-- C5 counterexample: at a concrete invocation where a span is started
(sentry on, rate 1), the span close does NOT occur before the context
release, and the context release is NOT the last event of the trace — the
deferred `span.Finish()` was registered first and therefore runs last,
after `ReleaseContext`. -/
theorem executeWithContext_release_not_last_counterexample :
    ¬ ((executeWithContext ⟨true, 1, []⟩ (fun _ _ => false) (fun _ => none) "/x"
          (mkWork none) none).1.indexOf Ev.spanFinish <
        (executeWithContext ⟨true, 1, []⟩ (fun _ _ => false) (fun _ => none) "/x"
          (mkWork none) none).1.indexOf Ev.ctxRelease) ∧
    (executeWithContext ⟨true, 1, []⟩ (fun _ _ => false) (fun _ => none) "/x"
          (mkWork none) none).1.getLast? ≠ some Ev.ctxRelease := by
  decide

/-- C5 amended: whenever a span is started, the span close — not the
context release — is the last observable side effect of the scheduled
execution, and the context is released strictly before the span is closed
(ordering ContextReleased before SpanClosed). -/
theorem executeWithContext_span_finish_last (cfg : Cfg) (rm : String → String → Bool)
    (lk : String → Option Pool) (path : String) (p : Option PanicVal)
    (h1 : cfg.sentryOn = true) (h2 : 0 < FloatInRange cfg.tracesSampleRate 0 1) :
    (∃ l, ctxTrace cfg rm lk path p = l ++ [Ev.spanFinish]) ∧
    before Ev.ctxRelease Ev.spanFinish (ctxTrace cfg rm lk path p) := by
  rw [ctxTrace_eq, spanClose_eq_iff]
  rw [if_pos ⟨h1, h2⟩]
  constructor
  · exact ⟨Ev.ctxAcquire :: (spanOpen cfg rm path ++ [Ev.workRun] ++
      (recoverPanic cfg.sentryOn true p).1 ++ [Ev.ctxRelease]), by simp⟩
  · exact ⟨Ev.ctxAcquire :: (spanOpen cfg rm path ++ [Ev.workRun] ++
      (recoverPanic cfg.sentryOn true p).1), [], [], by simp⟩

/-- C5 amended witness: sentry on, rate 1, no panic. -/
theorem executeWithContext_span_finish_last_witness :
    (∃ l, ctxTrace ⟨true, 1, []⟩ (fun _ _ => false) (fun _ => none) "/x" none =
      l ++ [Ev.spanFinish]) ∧
    before Ev.ctxRelease Ev.spanFinish
      (ctxTrace ⟨true, 1, []⟩ (fun _ _ => false) (fun _ => none) "/x" none) :=
  executeWithContext_span_finish_last ⟨true, 1, []⟩ (fun _ _ => false) (fun _ => none)
    "/x" none rfl (by decide)

/-- C6: for a panicking unit of work under `ExecuteWithContext`, recovery
is the innermost deferred action relative to context release: the panic is
logged after the context was acquired and strictly before the single
release of the context, i.e. recovery runs while the context is still
held. -/
theorem executeWithContext_recovery_before_release (cfg : Cfg)
    (rm : String → String → Bool) (lk : String → Option Pool)
    (path : String) (v : PanicVal) :
    before Ev.ctxAcquire (Ev.logError v) (ctxTrace cfg rm lk path (some v)) ∧
    before (Ev.logError v) Ev.ctxRelease (ctxTrace cfg rm lk path (some v)) ∧
    (ctxTrace cfg rm lk path (some v)).count Ev.ctxRelease = 1 := by
  rw [ctxTrace_eq]
  refine ⟨⟨[], spanOpen cfg rm path ++ [Ev.workRun] ++
      (if cfg.sentryOn then [Ev.sinkCapture v true true] else []),
      Ev.ctxRelease :: spanClose cfg, ?_⟩,
    ⟨Ev.ctxAcquire :: (spanOpen cfg rm path ++ [Ev.workRun] ++
      (if cfg.sentryOn then [Ev.sinkCapture v true true] else [])), [], spanClose cfg, ?_⟩,
    ?_⟩
  · simp [recoverPanic]
  · simp [recoverPanic]
  · have h1 : (spanOpen cfg rm path).count Ev.ctxRelease = 0 :=
      List.count_eq_zero_of_not_mem (not_mem_spanOpen (by simp) (by simp))
    have h2 : (spanClose cfg).count Ev.ctxRelease = 0 :=
      List.count_eq_zero_of_not_mem (not_mem_spanClose (by simp))
    have h3 : ((recoverPanic cfg.sentryOn true (some v)).1).count Ev.ctxRelease = 0 := by
      refine List.count_eq_zero_of_not_mem (fun h => ?_)
      rcases mem_recoverPanic h with ⟨w, hw⟩ | ⟨w, hw⟩ <;> simp at hw
    simp [List.count_cons, List.count_append, h1, h2, h3]

/-- C7: a tracing span is created iff sentry is on and the clamped sampling
rate is strictly positive; a span is closed iff it was started; and with
sentry on at sampling rate 0 no span is started yet a panic is still
captured and forwarded to the sink. -/
theorem executeWithContext_span_creation_iff (cfg : Cfg) (rm : String → String → Bool)
    (lk : String → Option Pool) (path : String) (v : PanicVal) :
    (Ev.spanStart ∈ ctxTrace cfg rm lk path (some v) ↔
      (cfg.sentryOn = true ∧ 0 < FloatInRange cfg.tracesSampleRate 0 1)) ∧
    (Ev.spanFinish ∈ ctxTrace cfg rm lk path (some v) ↔
      Ev.spanStart ∈ ctxTrace cfg rm lk path (some v)) ∧
    (cfg.sentryOn = true → cfg.tracesSampleRate = 0 →
      Ev.sinkCapture v true true ∈ ctxTrace cfg rm lk path (some v) ∧
      Ev.spanStart ∉ ctxTrace cfg rm lk path (some v)) := by
  refine ⟨spanStart_mem_ctxTrace_iff cfg rm lk path (some v), ?_, ?_⟩
  · rw [spanStart_mem_ctxTrace_iff, spanFinish_mem_ctxTrace_iff]
  · intro h1 h2
    constructor
    · rw [ctxTrace_eq]
      simp [recoverPanic, h1]
    · rw [spanStart_mem_ctxTrace_iff]
      rintro ⟨-, hlt⟩
      rw [h2] at hlt
      norm_num [FloatInRange] at hlt

/-- C7 witness: sentry on, sampling rate 0, panicking work `boom`. -/
theorem executeWithContext_span_creation_iff_witness :
    Ev.sinkCapture "boom" true true ∈
      ctxTrace ⟨true, 0, []⟩ (fun _ _ => false) (fun _ => none) "/x" (some "boom") ∧
    Ev.spanStart ∉
      ctxTrace ⟨true, 0, []⟩ (fun _ _ => false) (fun _ => none) "/x" (some "boom") :=
  (executeWithContext_span_creation_iff ⟨true, 0, []⟩ (fun _ _ => false) (fun _ => none)
    "/x" "boom").2.2 rfl rfl

/-- C8: when a span is started, it is marked not-sampled iff the request
path matches at least one configured skip pattern (regex match, first
match wins — the mark is emitted at most once); a span is still started
for a skipped path. -/
theorem executeWithContext_skip_marking (cfg : Cfg) (rm : String → String → Bool)
    (lk : String → Option Pool) (path : String) (p : Option PanicVal)
    (h1 : cfg.sentryOn = true) (h2 : 0 < FloatInRange cfg.tracesSampleRate 0 1) :
    Ev.spanStart ∈ ctxTrace cfg rm lk path p ∧
    (Ev.spanMarkNotSampled ∈ ctxTrace cfg rm lk path p ↔
      ∃ pat ∈ cfg.skipTracesEndpoints, rm pat path = true) ∧
    (ctxTrace cfg rm lk path p).count Ev.spanMarkNotSampled ≤ 1 := by
  have hopen : spanOpen cfg rm path =
      Ev.spanStart :: markSkipLoop rm cfg.skipTracesEndpoints path := by
    unfold spanOpen
    rw [if_pos h1, if_pos h2]
  refine ⟨(spanStart_mem_ctxTrace_iff cfg rm lk path p).mpr ⟨h1, h2⟩, ?_, ?_⟩
  · rw [mark_mem_ctxTrace_iff, hopen, markSkipLoop_eq]
    constructor
    · intro h
      rcases List.mem_cons.mp h with h | h
      · simp at h
      · split at h
        · rename_i hany
          rw [List.any_eq_true] at hany
          obtain ⟨x, hx, hpx⟩ := hany
          exact ⟨x, hx, hpx⟩
        · simp at h
    · rintro ⟨pat, hmem, hmatch⟩
      have hany : cfg.skipTracesEndpoints.any (fun e => rm e path) = true :=
        List.any_eq_true.mpr ⟨pat, hmem, hmatch⟩
      simp [hany]
  · rw [ctxTrace_eq]
    have hz1 : ((recoverPanic cfg.sentryOn true p).1).count Ev.spanMarkNotSampled = 0 := by
      refine List.count_eq_zero_of_not_mem (fun h => ?_)
      rcases mem_recoverPanic h with ⟨w, hw⟩ | ⟨w, hw⟩ <;> simp at hw
    have hz2 : (spanClose cfg).count Ev.spanMarkNotSampled = 0 :=
      List.count_eq_zero_of_not_mem (not_mem_spanClose (by simp))
    have hm : (markSkipLoop rm cfg.skipTracesEndpoints path).count
        Ev.spanMarkNotSampled ≤ 1 := by
      rw [markSkipLoop_eq]
      split <;> simp
    rw [hopen]
    simp [List.count_cons, List.count_append, hz1, hz2]
    omega

/-- C8 witness: the `/ping` scenario — skip list `["/ping"]`, rate 1, a
span is started and marked not-sampled. -/
theorem executeWithContext_skip_marking_witness :
    Ev.spanStart ∈ ctxTrace ⟨true, 1, ["/ping"]⟩ (fun pat s => pat == s)
      (fun _ => none) "/ping" none ∧
    Ev.spanMarkNotSampled ∈ ctxTrace ⟨true, 1, ["/ping"]⟩ (fun pat s => pat == s)
      (fun _ => none) "/ping" none :=
  ⟨(executeWithContext_skip_marking ⟨true, 1, ["/ping"]⟩ (fun pat s => pat == s)
      (fun _ => none) "/ping" none rfl (by decide)).1,
   ((executeWithContext_skip_marking ⟨true, 1, ["/ping"]⟩ (fun pat s => pat == s)
      (fun _ => none) "/ping" none rfl (by decide)).2.1).mpr
     ⟨"/ping", by simp, by simp⟩⟩

namespace helpers

/-- C9: `ExtractUserInfoFromJWT` returns success exactly when the parse
error is nil and the token is valid; every error it returns is exactly
`invalid user token`; the `token is expired` branch is unreachable, since
it is guarded by a type assertion on an error that is nil in that
branch. -/
theorem extractUserInfo_expired_unreachable (r : ParseResult) :
    (ExtractUserInfoFromJWT r = none ↔ (r.err = none ∧ r.valid = true)) ∧
    ExtractUserInfoFromJWT r ≠ some "token is expired" ∧
    (∀ s, ExtractUserInfoFromJWT r = some s → s = "invalid user token") := by
  obtain ⟨valid, err⟩ := r
  cases err <;> cases valid <;> simp [ExtractUserInfoFromJWT]

/-- C9 witness: a valid parse yields success. -/
theorem extractUserInfo_expired_unreachable_witness :
    ExtractUserInfoFromJWT ⟨true, none⟩ = none :=
  (extractUserInfo_expired_unreachable ⟨true, none⟩).1.mpr ⟨rfl, rfl⟩

/-- C10: `ExtractJWTFromHeader` returns the substring of the header from
index 7 exactly when the header has length at least 8 and its first six
characters are `Bearer` (the seventh character is skipped unchecked), and
the empty string otherwise — including for an absent header. -/
theorem extractJWT_characterization (h : List Char) :
    ExtractJWTFromHeader h =
      if 8 ≤ h.length ∧ h.take 6 = "Bearer".toList then h.drop 7 else [] := by
  have hb : "Bearer".length = 6 := rfl
  rw [ExtractJWTFromHeader]
  simp only [hb]
  by_cases hc : h.take 6 = "Bearer".toList
  · by_cases hl : 8 ≤ h.length
    · have hl2 : 6 + 1 < h.length := by omega
      simp [hc, hl, hl2]
    · have hl2 : ¬ (6 + 1 < h.length) := by omega
      simp [hc, hl, hl2]
  · simp only [show "Bearer".toList = ['B','e','a','r','e','r'] from rfl] at hc
    simp [hc]

end helpers

end Bean
